import Mathlib

/-!
# Verification of the replicache-client transactional key-value core

Shallow embedding of `src/kv/mod.rs`, `src/kv/idbstore.rs` and
`src/util/uuid/mod.rs`.  Machine integers (`u8`) are modelled as `Nat`
with explicit masking where the source masks; JavaScript values returned
by the IndexedDB backend are modelled by an explicit `JsValue` type with
a distinguished `undefined` marker.  Asynchronous callback-driven control
flow is modelled by traces of backend-interaction events plus explicit
parameters for the values the environment (the IndexedDB engine) delivers
to the awaiting code.
-/

namespace Replicache

/-- Keys are strings (`&str` in the source). -/
abbrev Key := String

/-- Values are arbitrary byte sequences (`Vec<u8>`); a byte is a `Nat`
(the source never does arithmetic on value bytes). -/
abbrev Bytes := List Nat

/-- `StoreError` from `src/kv/mod.rs`: a single opaque string variant. -/
inductive StoreError where
  | Str : String → StoreError
deriving DecidableEq, Repr

/-! ## `src/util/uuid/mod.rs` -/

/-- The `UuidElements` enum of `src/util/uuid/mod.rs`. -/
inductive UuidElements where
  | Random09AF
  | Random89AB
  | Hyphen
  | Version
deriving DecidableEq, Repr

/-- The `UUID_V4_FORMAT` constant of `src/util/uuid/mod.rs` (36 entries). -/
def UUID_V4_FORMAT : List UuidElements :=
  [.Random09AF, .Random09AF, .Random09AF, .Random09AF,
   .Random09AF, .Random09AF, .Random09AF, .Random09AF,
   .Hyphen,
   .Random09AF, .Random09AF, .Random09AF, .Random09AF,
   .Hyphen,
   .Version,
   .Random09AF, .Random09AF, .Random09AF,
   .Hyphen,
   .Random89AB, .Random09AF, .Random09AF, .Random09AF,
   .Hyphen,
   .Random09AF, .Random09AF, .Random09AF, .Random09AF,
   .Random09AF, .Random09AF, .Random09AF, .Random09AF,
   .Random09AF, .Random09AF, .Random09AF, .Random09AF]

/-- Rust's `char::from_digit(num, radix)`: for `num < radix` gives
`'0' + num` when `num < 10` and `'a' + num - 10` otherwise; `None` above
the radix. -/
def char_from_digit (num radix : Nat) : Option Char :=
  if num < radix then
    if num < 10 then some (Char.ofNat (48 + num))
    else some (Char.ofNat (97 + (num - 10)))
  else none

/-- One output character of `uuid_from_numbers`: the match arm applied to
the format element at index `i`, reading `random_numbers[i]`.  `.expect`
in the source is modelled by `Option.getD` with a sentinel character that
is provably never produced (`char_from_digit_uuid_isSome`). -/
def uuidChar (random_numbers : Nat → Nat) (i : Nat) : UuidElements → Char
  | .Random09AF => (char_from_digit (random_numbers i &&& 0b1111) 16).getD '!'
  | .Random89AB => (char_from_digit ((random_numbers i &&& 0b11) + 8) 16).getD '!'
  | .Version => '4'
  | .Hyphen => '-'

/-- The `.iter().enumerate().map(...)` loop of `uuid_from_numbers`:
maps each format element, paired with its index, to a character. -/
def uuidMap (random_numbers : Nat → Nat) : Nat → List UuidElements → List Char
  | _, [] => []
  | i, kind :: rest => uuidChar random_numbers i kind :: uuidMap random_numbers (i + 1) rest

/-- `uuid_from_numbers` of `src/util/uuid/mod.rs`: formats 36 bytes
(modelled as an index function; the source takes `&[u8; 36]`) according
to `UUID_V4_FORMAT` and collects the characters into a string. -/
def uuid_from_numbers (random_numbers : Nat → Nat) : String :=
  String.mk (uuidMap random_numbers 0 UUID_V4_FORMAT)

/-- Lowercase-hexadecimal-digit test used to state the spec's claim about
the uuid format. -/
def isLowerHexDigit (c : Char) : Bool :=
  ('0' ≤ c && c ≤ '9') || ('a' ≤ c && c ≤ 'f')

/-- Positional check of the claimed version-4 format, character by
character (`i` is the position of the head of the remaining list). -/
def checkUuidChars : Nat → List Char → Bool
  | _, [] => true
  | i, c :: rest =>
    (if i = 8 ∨ i = 13 ∨ i = 18 ∨ i = 23 then c = '-'
     else if i = 14 then c = '4'
     else if i = 19 then decide (c ∈ ['8', '9', 'a', 'b'])
     else isLowerHexDigit c) && checkUuidChars (i + 1) rest

/-- The claimed version-4 shape: 36 characters, hyphens at 8/13/18/23,
'4' at 14, one of 8/9/a/b at 19, lowercase hex elsewhere. -/
def checkUuidV4 (s : String) : Bool :=
  decide (s.length = 36) && checkUuidChars 0 s.data

/-- The `.expect(ERROR_MAKE_CHAR)` in the source never panics: both
digit computations stay below the radix. -/
theorem char_from_digit_uuid_isSome (b : Nat) :
    (char_from_digit (b &&& 0b1111) 16).isSome ∧
      (char_from_digit ((b &&& 0b11) + 8) 16).isSome := by
  have h1 : b &&& 0b1111 < 16 := Nat.lt_succ_of_le (Nat.and_le_right)
  have h2 : (b &&& 0b11) + 8 < 16 := by
    have := Nat.and_le_right (n := b) (m := 0b11)
    omega
  constructor <;> · simp only [char_from_digit, h1, h2, if_true]; split <;> simp

theorem lowerHex_of_lt16 :
    ∀ m, m < 16 → isLowerHexDigit ((char_from_digit m 16).getD '!') = true := by
  decide

theorem random89AB_mem :
    ∀ m, m < 4 →
      ((char_from_digit (m + 8) 16).getD '!') ∈ (['8', '9', 'a', 'b'] : List Char) := by
  decide

theorem uuidChar_09AF_hex (n : Nat → Nat) (i : Nat) :
    isLowerHexDigit (uuidChar n i .Random09AF) = true := by
  have h : n i &&& 0b1111 < 16 := Nat.lt_succ_of_le (Nat.and_le_right)
  exact lowerHex_of_lt16 _ h

theorem uuidChar_89AB_mem (n : Nat → Nat) (i : Nat) :
    uuidChar n i .Random89AB ∈ (['8', '9', 'a', 'b'] : List Char) := by
  have h : n i &&& 0b11 < 4 := Nat.lt_succ_of_le (Nat.and_le_right)
  exact random89AB_mem _ h

theorem uuidChar_version (n : Nat → Nat) (i : Nat) : uuidChar n i .Version = '4' := rfl

theorem uuidChar_hyphen (n : Nat → Nat) (i : Nat) : uuidChar n i .Hyphen = '-' := rfl

/-- C9: for every input array of 36 bytes, `uuid_from_numbers` produces a
36-character version-4-formatted identifier: hyphens at positions 8, 13,
18 and 23, the literal '4' at position 14, a character among 8/9/a/b at
position 19, and a lowercase hexadecimal digit at every other position. -/
theorem uuid_from_numbers_v4_format (n : Nat → Nat) :
    checkUuidV4 (uuid_from_numbers n) = true := by
  simp [checkUuidV4, uuid_from_numbers, UUID_V4_FORMAT, uuidMap, checkUuidChars,
        uuidChar_09AF_hex, uuidChar_89AB_mem, uuidChar_version, uuidChar_hyphen,
        String.length]
  simpa using uuidChar_89AB_mem n 19

/-! ## Backend object store (external IndexedDB engine, spec §6)

The engine is an external collaborator of this repository; per §6 it
exposes one named object store holding one value per key with
last-write-wins puts, per-key get/count/put requests, and transaction
level completion events.  We model the store as an association map. -/

/-- An association map from keys to byte values, used both for the
backend object store contents and for a write transaction's pending
map (`HashMap<String, Vec<u8>>`). -/
abbrev KvMap := List (Key × Bytes)

namespace KvMap

/-- Key membership. -/
def containsKey (m : KvMap) (k : Key) : Bool := m.any (fun e => e.1 = k)

/-- Lookup of the value stored under `k`. -/
def lookup (m : KvMap) (k : Key) : Option Bytes :=
  (m.find? (fun e => e.1 = k)).map (fun e => e.2)

/-- Insert with replacement (one value per key, last write wins). -/
def insert (m : KvMap) (k : Key) (v : Bytes) : KvMap :=
  (k, v) :: m.filter (fun e => ¬ e.1 = k)

/-- Emptiness (`HashMap::is_empty`). -/
def isEmpty (m : KvMap) : Bool := List.isEmpty m

theorem lookup_insert_self (m : KvMap) (k : Key) (v : Bytes) :
    (m.insert k v).lookup k = some v := by
  simp [insert, lookup, List.find?]

theorem containsKey_eq_isSome_lookup (m : KvMap) (k : Key) :
    m.containsKey k = (m.lookup k).isSome := by
  induction m with
  | nil => rfl
  | cons e rest ih =>
    by_cases h : e.1 = k <;> simp [containsKey, lookup, List.find?, h, List.any] at ih ⊢
    simpa [containsKey, lookup] using ih

end KvMap

/-- A JavaScript value as delivered by an IndexedDB request: either the
distinguished `undefined` marker (key absent) or a `Uint8Array`,
modelled by its byte contents. -/
inductive JsValue where
  | undefined
  | bytes : Bytes → JsValue
deriving DecidableEq, Repr

/-- The engine's answer to a `get(key)` request (spec §6): the stored
value, or `undefined` when the key is absent. -/
def ObjectStore.getRequest (s : KvMap) (k : Key) : JsValue :=
  match s.lookup k with
  | none => .undefined
  | some b => .bytes b

/-- The engine's answer to a `count_with_key(key)` request: how many
entries live under that key (0 or 1, one value per key). -/
def ObjectStore.countRequest (s : KvMap) (k : Key) : Nat :=
  match s.lookup k with
  | none => 0
  | some _ => 1

/-- The engine's application of a `put_with_key(value, key)` request:
last-write-wins insertion. -/
def ObjectStore.putRequest (s : KvMap) (k : Key) (v : Bytes) : KvMap :=
  s.insert k v

/-! ## `src/kv/idbstore.rs`: read-side marshalling -/

/-- The result marshalling of `IdbStore::get` / `ReadTransaction::get`
(`src/kv/idbstore.rs`): `undefined` becomes `None`, any other value is
read back as its bytes. -/
def getResultMarshal : JsValue → Option Bytes
  | .undefined => none
  | .bytes b => some b

/-- The result marshalling of `IdbStore::has` / `ReadTransaction::has`:
the count is interpreted as a boolean via `count >= 1`. -/
def hasResultMarshal (count : Nat) : Bool :=
  decide (count ≥ 1)

/-- `ReadTransaction::get` against backend contents `s`: issue the get
request, await its completion, marshal the result. -/
def ReadTransaction.get (s : KvMap) (k : Key) : Option Bytes :=
  getResultMarshal (ObjectStore.getRequest s k)

/-- `ReadTransaction::has` against backend contents `s`. -/
def ReadTransaction.has (s : KvMap) (k : Key) : Bool :=
  hasResultMarshal (ObjectStore.countRequest s k)

/-! ## `src/kv/idbstore.rs`: write transaction -/

/-- The `WriteState` enum: the transaction outcome cell's states. -/
inductive WriteState where
  | Open
  | Committed
  | Aborted
  | Errored
deriving DecidableEq, Repr

/-- The body of `WriteTransaction::tx_callback` (`src/kv/idbstore.rs`
lines 257–267): under the lock, the cell is unconditionally overwritten
with the firing event's state (there is no check that the cell is still
`Open`), then the condition variable is notified. -/
def tx_callback (_cell : WriteState) (new_state : WriteState) : WriteState :=
  new_state

/-- The outcome cell after a sequence of terminal events has fired, each
handled by `tx_callback`. -/
def applyTerminalEvents (cell : WriteState) (events : List WriteState) : WriteState :=
  events.foldl tx_callback cell

/-- `impl Read for WriteTransaction`, `has`: pending map first (`true`
whenever the key is present), backend fallthrough on a miss. -/
def WriteTransaction.has (pending : KvMap) (backend : KvMap) (k : Key) : Bool :=
  match pending.containsKey k with
  | true => true
  | false => ReadTransaction.has backend k

/-- `impl Read for WriteTransaction`, `get`: pending value if present,
backend fallthrough on a miss. -/
def WriteTransaction.get (pending : KvMap) (backend : KvMap) (k : Key) : Option Bytes :=
  match pending.lookup k with
  | some v => some v
  | none => ReadTransaction.get backend k

/-- `WriteTransaction::put`: stages the mutation in the pending map; no
backend I/O. -/
def WriteTransaction.put (pending : KvMap) (k : Key) (v : Bytes) : KvMap :=
  pending.insert k v

/-! ## Backend-interaction traces

Each adapter entry point is given an event trace recording, in source
order, the backend requests it issues, the one-shot completion signals
it creates, the callbacks it attaches, and the suspension points where
it awaits a signal.  Per-request signals are identified by the key of
the request they complete. -/

/-- One backend-interaction event of `src/kv/idbstore.rs`. -/
inductive Event where
  | getRequest (k : Key)
  | countRequest (k : Key)
  | putRequest (k : Key) (v : Bytes)
  | abortRequest
  | createSignal (k : Key)
  | createTxSignal
  | attachOnSuccess (k : Key)
  | attachOnError (k : Key)
  | attachOnComplete
  | awaitSignal (k : Key)
  | awaitTxSignal
  | awaitOutcome
deriving DecidableEq, Repr

/-- Trace of `ReadTransaction::get` (lines 193–208): the get request is
issued, then the oneshot channel is created, then the success and error
callbacks are attached, then the caller suspends on the receiver. -/
def ReadTransaction.getTrace (k : Key) : List Event :=
  [.getRequest k, .createSignal k, .attachOnSuccess k, .attachOnError k, .awaitSignal k]

/-- Trace of `ReadTransaction::has` (lines 176–191): same shape over a
count request. -/
def ReadTransaction.hasTrace (k : Key) : List Event :=
  [.countRequest k, .createSignal k, .attachOnSuccess k, .attachOnError k, .awaitSignal k]

/-- The per-entry body of the loop over `pending.iter()` in
`WriteTransaction::commit` (lines 314–325): issue the put request,
create its oneshot channel, attach only the success callback (no error
callback is attached there), and stash the receiver. -/
def commitIssueEvents : KvMap → List Event
  | [] => []
  | e :: rest =>
    Event.putRequest e.1 e.2 :: Event.createSignal e.1 :: Event.attachOnSuccess e.1 ::
      commitIssueEvents rest

/-- The `join_all(puts).await` in `commit`: one suspension per stashed
receiver. -/
def commitAwaitEvents (pending : KvMap) : List Event :=
  pending.map (fun e => Event.awaitSignal e.1)

/-- `WriteTransaction::commit` (lines 301–340), as trace plus result.
Parameters supplied by the environment: `outcome` is the value of the
outcome cell when `cv.wait_until(..)` resolves, and `txError` is
`self.rt.tx.error()` rendered as a string (`None` when the backend
reports no transaction-level error).  The synchronous `object_store`
and `put_with_key` calls are modelled as succeeding.  Empty pending map:
immediate success with no backend interaction.  Otherwise: issue all
puts, await all per-put signals, await the outcome; a reported backend
error wins, then a non-`Committed` outcome fails with "Transaction
aborted", else success. -/
def WriteTransaction.commit (pending : KvMap) (outcome : WriteState)
    (txError : Option String) : List Event × Except StoreError Unit :=
  if KvMap.isEmpty pending then ([], .ok ())
  else
    (commitIssueEvents pending ++ commitAwaitEvents pending ++ [Event.awaitOutcome],
     match txError with
     | some e => .error (.Str e)
     | none =>
       if outcome ≠ WriteState.Committed then .error (.Str "Transaction aborted")
       else .ok ())

/-- `WriteTransaction::rollback` (lines 342–367), as trace plus result.
`stateAtCheck` is the outcome cell's value at the early `match`;
`abortResult` is the result of the synchronous `self.rt.tx.abort()`
call; `outcome`/`txError` as in `commit`.  Empty pending map: immediate
success.  Already `Committed` or `Aborted`: immediate success.
Otherwise: request backend abort (propagating its error), await the
outcome; a reported backend error wins, then a non-`Aborted` outcome
fails with "Transaction abort failed", else success. -/
def WriteTransaction.rollback (pending : KvMap) (stateAtCheck : WriteState)
    (abortResult : Except StoreError Unit) (outcome : WriteState)
    (txError : Option String) : List Event × Except StoreError Unit :=
  if KvMap.isEmpty pending then ([], .ok ())
  else if stateAtCheck = WriteState.Committed ∨ stateAtCheck = WriteState.Aborted then
    ([], .ok ())
  else
    match abortResult with
    | .error e => ([Event.abortRequest], .error e)
    | .ok _ =>
      ([Event.abortRequest, Event.awaitOutcome],
       match txError with
       | some e => .error (.Str e)
       | none =>
         if outcome ≠ WriteState.Aborted then .error (.Str "Transaction abort failed")
         else .ok ())

/-- Trace of the overriding `IdbStore::put` (lines 90–118): one fresh
read-write backend transaction; the transaction-done channel is created
and only the `complete` callback attached; then the put request is
issued, its channel created, success and error callbacks attached; the
caller awaits the per-put signal, then the transaction-done signal. -/
def IdbStore.putTrace (k : Key) (v : Bytes) : List Event :=
  [.createTxSignal, .attachOnComplete, .putRequest k v, .createSignal k,
   .attachOnSuccess k, .attachOnError k, .awaitSignal k, .awaitTxSignal]

/-! ## Ordering of trace events -/

/-- `a` occurs strictly before `b` in the trace `l`. -/
def Precedes (l : List Event) (a b : Event) : Prop :=
  ∃ l₁ l₂ l₃, l = l₁ ++ a :: l₂ ++ b :: l₃

theorem precedes_append_singleton {l : List Event} {a : Event} (b : Event)
    (h : a ∈ l) : Precedes (l ++ [b]) a b := by
  obtain ⟨s, t, rfl⟩ := List.mem_iff_append.mp h
  exact ⟨s, t, [], by simp⟩

theorem precedes_of_mem_mem {l l' : List Event} {a b : Event}
    (ha : a ∈ l) (hb : b ∈ l') : Precedes (l ++ l') a b := by
  obtain ⟨s, t, rfl⟩ := List.mem_iff_append.mp ha
  obtain ⟨s', t', rfl⟩ := List.mem_iff_append.mp hb
  exact ⟨s, t ++ s', t', by simp⟩

theorem precedes_indices {l : List Event} {a b : Event} (h : Precedes l a b) :
    ∃ i j : Nat, i < j ∧ l[i]? = some a ∧ l[j]? = some b := by
  obtain ⟨l₁, l₂, l₃, rfl⟩ := h
  refine ⟨l₁.length, l₁.length + l₂.length + 1, by omega, ?_, ?_⟩
  · rw [List.getElem?_append, if_pos (by simp), List.getElem?_append_right (le_refl _)]
    simp
  · have h1 : l₁.length + l₂.length + 1 = (l₁ ++ a :: l₂).length := by simp; omega
    rw [h1, List.getElem?_append_right (le_refl _)]
    simp

/-! ## Observable behavior of the two put paths (for refinement) -/

/-- What a caller can observe of an async entry point: it returns
successfully, returns an error, or never completes (its awaited signal
is never fulfilled). -/
inductive AsyncOutcome where
  | ok
  | error (e : StoreError)
  | neverCompletes
deriving DecidableEq, Repr

/-- The engine's application of a committed write transaction's buffered
puts: each pending entry was pushed with `put_with_key`. -/
def applyPending (s : KvMap) (pending : KvMap) : KvMap :=
  pending.foldl (fun acc e => ObjectStore.putRequest acc e.1 e.2) s

/-- Observable behavior of the overriding `IdbStore::put`
(src/kv/idbstore.rs lines 90–118), given the terminal event the engine
fires for its backend transaction.  Only the `complete` callback is
attached to the transaction (line 101), so the transaction-done signal
resolves exactly when the engine fires `complete` (outcome
`Committed`): then the put has been applied and `Ok(())` is returned.
On `abort`/`error` no attached callback ever fires and the sender stays
alive inside the suspended future, so `txdonereceiver.await` never
resolves and the store is left unchanged. -/
def IdbStore.putObservable (s : KvMap) (k : Key) (v : Bytes)
    (outcome : WriteState) : AsyncOutcome × KvMap :=
  match outcome with
  | .Committed => (.ok, ObjectStore.putRequest s k v)
  | _ => (.neverCompletes, s)

/-- Observable behavior of the default `Store::put` path
(src/kv/mod.rs lines 27–31): open a write transaction, stage the single
mutation in its pending map, commit.  The committed engine transaction
applies the buffered puts; any other outcome leaves the store
unchanged and surfaces `commit`'s error. -/
def Store.putDefaultObservable (s : KvMap) (k : Key) (v : Bytes)
    (outcome : WriteState) (txError : Option String) : AsyncOutcome × KvMap :=
  let pending := WriteTransaction.put [] k v
  (match (WriteTransaction.commit pending outcome txError).2 with
   | .ok _ => .ok
   | .error e => .error e,
   if outcome = WriteState.Committed then applyPending s pending else s)

/-! ## Reader/writer isolation gate (spec §5)

Modelled from the spec: `src/kv/mod.rs` declares `pub mod memstore`, the
in-memory backend that implements the single-writer/multi-reader
ordering explicitly, but `memstore.rs` is not among the provided source
files, and for `IdbStore` the serialization lives inside the external
IndexedDB engine.  Per §5 the gate is "a counting gate for readers and a
mutual-exclusion gate for writers": an open-transaction request is a
pending event that completes only when its gate condition holds. -/

/-- A transaction-lifecycle event: the completion of an open request, or
the closing of an open transaction. -/
inductive LockEvent where
  | openRead
  | closeRead
  | openWrite
  | closeWrite
deriving DecidableEq, BEq, Repr

/-- Gate state: number of open readers, and whether a writer is open. -/
structure LockState where
  readers : Nat
  writer : Bool
deriving DecidableEq, Repr

/-- No transaction open. -/
def LockState.init : LockState := ⟨0, false⟩

/-- When an event may fire: an open-read request completes only with no
writer open; an open-write request completes only with no writer and no
reader open; closes require a matching open transaction. -/
def LockState.enabled : LockState → LockEvent → Bool
  | s, .openRead => !s.writer
  | s, .closeRead => decide (0 < s.readers)
  | s, .openWrite => !s.writer && decide (s.readers = 0)
  | s, .closeWrite => s.writer

/-- Effect of an event on the gate state. -/
def LockState.step : LockState → LockEvent → LockState
  | s, .openRead => ⟨s.readers + 1, s.writer⟩
  | s, .closeRead => ⟨s.readers - 1, s.writer⟩
  | s, .openWrite => ⟨s.readers, true⟩
  | s, .closeWrite => ⟨s.readers, false⟩

/-- A schedule is valid when every event is enabled in the state in
which it fires. -/
def validFrom : LockState → List LockEvent → Bool
  | _, [] => true
  | s, e :: rest => s.enabled e && validFrom (s.step e) rest

/-- The gate state after a schedule. -/
def runLock (s : LockState) (events : List LockEvent) : LockState :=
  events.foldl LockState.step s

/-- Occurrence count of an event in a schedule. -/
def countEv : List LockEvent → LockEvent → Nat
  | [], _ => 0
  | x :: rest, e => (if x = e then 1 else 0) + countEv rest e

theorem validFrom_append (s : LockState) (l l' : List LockEvent) :
    validFrom s (l ++ l') = (validFrom s l && validFrom (runLock s l) l') := by
  induction l generalizing s with
  | nil => simp [validFrom, runLock]
  | cons e rest ih => simp [validFrom, runLock, ih, Bool.and_assoc, List.foldl_cons]

theorem runLock_append (s : LockState) (l l' : List LockEvent) :
    runLock s (l ++ l') = runLock (runLock s l) l' := by
  simp [runLock, List.foldl_append]

theorem countEv_append (l l' : List LockEvent) (e : LockEvent) :
    countEv (l ++ l') e = countEv l e + countEv l' e := by
  induction l with
  | nil => simp [countEv]
  | cons x rest ih => simp [countEv, ih]; omega

/-- Counting invariant of the gate: the reader count is exactly the
surplus of completed read opens over read closes, and the writer flag
records whether write opens exceed write closes by one. -/
theorem runLock_invariant (pre : List LockEvent)
    (h : validFrom LockState.init pre = true) :
    (runLock LockState.init pre).readers + countEv pre .closeRead =
        countEv pre .openRead ∧
      ((runLock LockState.init pre).writer = true →
        countEv pre .openWrite = countEv pre .closeWrite + 1) ∧
      ((runLock LockState.init pre).writer = false →
        countEv pre .openWrite = countEv pre .closeWrite) := by
  induction pre using List.reverseRecOn with
  | nil => simp [runLock, countEv, LockState.init]
  | append_singleton rest x ih =>
    rw [validFrom_append] at h
    obtain ⟨h1, h2⟩ := Bool.and_eq_true_iff.mp h
    obtain ⟨ihr, ihw1, ihw0⟩ := ih h1
    simp only [validFrom, Bool.and_true] at h2
    rw [runLock_append]
    have hstep : ∀ y, runLock (runLock LockState.init rest) [y] =
        (runLock LockState.init rest).step y := fun _ => rfl
    rw [hstep]
    simp only [countEv_append]
    cases hw : (runLock LockState.init rest).writer with
    | false =>
      have hcw := ihw0 hw
      cases x <;> simp_all [LockState.enabled, LockState.step, countEv] <;> omega
    | true =>
      have hcw := ihw1 hw
      cases x <;> simp_all [LockState.enabled, LockState.step, countEv]
      omega

/-! ## Claims -/

/-- C3: single-writer/multi-reader isolation ordering.  In any valid
schedule of the gate, when an open-write request completes, every read
opened before it has already been closed (equal open/close counts) and
every previously opened writer has been closed; when an open-read
request completes, every previously opened writer has been closed. -/
theorem isolation_ordering (pre : List LockEvent) (e : LockEvent)
    (h : validFrom LockState.init (pre ++ [e]) = true) :
    (e = LockEvent.openWrite →
       countEv pre .openRead = countEv pre .closeRead ∧
       countEv pre .openWrite = countEv pre .closeWrite) ∧
    (e = LockEvent.openRead →
       countEv pre .openWrite = countEv pre .closeWrite) := by
  rw [validFrom_append] at h
  obtain ⟨h1, h2⟩ := Bool.and_eq_true_iff.mp h
  simp only [validFrom, Bool.and_true] at h2
  obtain ⟨ihr, ihw1, ihw0⟩ := runLock_invariant pre h1
  constructor
  · rintro rfl
    simp only [LockState.enabled, Bool.and_eq_true, Bool.not_eq_true',
      decide_eq_true_eq] at h2
    exact ⟨by omega, ihw0 h2.1⟩
  · rintro rfl
    simp only [LockState.enabled, Bool.not_eq_true'] at h2
    exact ihw0 h2

/-- Witness for C3 at the concrete schedule
`[openRead, closeRead]` followed by a completing `openWrite`. -/
theorem isolation_ordering_witness :
    countEv [LockEvent.openRead, LockEvent.closeRead] .openRead =
        countEv [LockEvent.openRead, LockEvent.closeRead] .closeRead ∧
      countEv [LockEvent.openRead, LockEvent.closeRead] .openWrite =
        countEv [LockEvent.openRead, LockEvent.closeRead] .closeWrite :=
  (isolation_ordering [.openRead, .closeRead] .openWrite (by decide)).1 rfl

/-- C5: `commit()` and `rollback()` on an empty pending map return
success with an empty backend-interaction trace, whatever the state of
the backend transaction (outcome cell value, abort result, reported
error). -/
theorem empty_pending_commit_rollback_ok (pending : KvMap)
    (stateAtCheck outcome : WriteState) (abortResult : Except StoreError Unit)
    (txError : Option String) (h : KvMap.isEmpty pending = true) :
    WriteTransaction.commit pending outcome txError = ([], .ok ()) ∧
      WriteTransaction.rollback pending stateAtCheck abortResult outcome txError
        = ([], .ok ()) := by
  constructor <;> simp [WriteTransaction.commit, WriteTransaction.rollback, h]

/-- Witness for C5 at the empty pending map with an errored backend
transaction. -/
theorem empty_pending_commit_rollback_ok_witness :
    WriteTransaction.commit [] WriteState.Aborted (some "e") = ([], .ok ()) ∧
      WriteTransaction.rollback [] WriteState.Errored
        (.error (StoreError.Str "x")) WriteState.Aborted (some "e")
        = ([], .ok ()) :=
  empty_pending_commit_rollback_ok [] WriteState.Errored WriteState.Aborted
    (.error (StoreError.Str "x")) (some "e") rfl

/-- C6: `rollback()` with a non-empty pending map: if the outcome cell
already holds `Committed` or `Aborted` it succeeds immediately;
otherwise it issues a backend abort request and succeeds exactly when
the abort call succeeded, no transaction-level error is reported and the
awaited outcome is `Aborted`. -/
theorem rollback_nonempty_spec (pending : KvMap) (stateAtCheck outcome : WriteState)
    (abortResult : Except StoreError Unit) (txError : Option String)
    (h : KvMap.isEmpty pending = false) :
    (stateAtCheck = WriteState.Committed ∨ stateAtCheck = WriteState.Aborted →
       WriteTransaction.rollback pending stateAtCheck abortResult outcome txError
         = ([], .ok ())) ∧
    (¬(stateAtCheck = WriteState.Committed ∨ stateAtCheck = WriteState.Aborted) →
       Event.abortRequest ∈
           (WriteTransaction.rollback pending stateAtCheck abortResult outcome txError).1 ∧
         ((WriteTransaction.rollback pending stateAtCheck abortResult outcome txError).2
             = .ok () ↔
           abortResult = .ok () ∧ txError = none ∧ outcome = WriteState.Aborted)) := by
  constructor
  · intro hs
    simp [WriteTransaction.rollback, h, hs]
  · intro hs
    rcases abortResult with e | u
    · simp [WriteTransaction.rollback, h, hs]
    · rcases txError with _ | e
      · by_cases ho : outcome = WriteState.Aborted <;>
          simp [WriteTransaction.rollback, h, hs, ho]
      · simp [WriteTransaction.rollback, h, hs]

/-- Witness for C6: non-empty pending map, outcome cell still `Open` at
the check, successful abort call, awaited outcome `Aborted`. -/
theorem rollback_nonempty_spec_witness :
    Event.abortRequest ∈
        (WriteTransaction.rollback [("k", [0])] WriteState.Open (.ok ())
          WriteState.Aborted none).1 ∧
      ((WriteTransaction.rollback [("k", [0])] WriteState.Open (.ok ())
          WriteState.Aborted none).2 = .ok () ↔
        (Except.ok () : Except StoreError Unit) = .ok () ∧ (none : Option String) = none ∧
          WriteState.Aborted = WriteState.Aborted) :=
  (rollback_nonempty_spec [("k", [0])] WriteState.Open WriteState.Aborted
    (.ok ()) none rfl).2 (by simp)

/-- C4 counterexample: the outcome cell is not mutated exactly once by
the first terminal event; `tx_callback` performs an unconditional
overwrite, so when an `error` event is followed by an `abort` event the
stored outcome changes from `Errored` to `Aborted` instead of the later
event being discarded. -/
theorem outcome_cell_second_event_overwrites_cex :
    applyTerminalEvents WriteState.Open [WriteState.Errored, WriteState.Aborted]
        = WriteState.Aborted ∧
      applyTerminalEvents WriteState.Open [WriteState.Errored, WriteState.Aborted]
        ≠ WriteState.Errored := by
  constructor <;> decide

/-- C4 amended: each terminal event unconditionally overwrites the
outcome cell under the lock, so after any non-empty sequence of terminal
events the cell holds the state of the event that fired last (in
particular, when exactly one terminal event fires the cell is mutated
exactly once, to that event's state); no event sequence panics, the
update being a total overwrite. -/
theorem outcome_cell_last_event_wins (cell : WriteState)
    (events : List WriteState) (e : WriteState) :
    tx_callback cell e = e ∧
      applyTerminalEvents cell (events ++ [e]) = e := by
  constructor
  · rfl
  · simp [applyTerminalEvents, List.foldl_append, tx_callback]

/-- C7: round-trip through the backend adapter: after a put of any byte
sequence `v` (empty included) under `k`, a get of `k` marshals back
exactly `v`; and a get returns `none` exactly when the backend holds no
entry for `k` (the `undefined` marker), so an absent key is never
conflated with a present empty value. -/
theorem put_get_roundtrip (s : KvMap) (k : Key) (v : Bytes) :
    ReadTransaction.get (ObjectStore.putRequest s k v) k = some v ∧
      (ReadTransaction.get s k = none ↔ KvMap.lookup s k = none) := by
  constructor
  · simp [ReadTransaction.get, ObjectStore.getRequest, ObjectStore.putRequest,
      KvMap.lookup_insert_self, getResultMarshal]
  · simp only [ReadTransaction.get, ObjectStore.getRequest]
    cases KvMap.lookup s k <;> simp [getResultMarshal]

theorem commitIssueEvents_append (p₁ p₂ : KvMap) :
    commitIssueEvents (p₁ ++ p₂) = commitIssueEvents p₁ ++ commitIssueEvents p₂ := by
  induction p₁ with
  | nil => rfl
  | cons e rest ih => simp [commitIssueEvents, ih]

theorem putRequest_mem_commitIssueEvents {pending : KvMap} {k : Key} {v : Bytes}
    (h : (k, v) ∈ pending) : Event.putRequest k v ∈ commitIssueEvents pending := by
  induction pending with
  | nil => cases h
  | cons e rest ih =>
    rcases List.mem_cons.mp h with h | h
    · cases h; simp [commitIssueEvents]
    · exact List.mem_cons_of_mem _ (List.mem_cons_of_mem _ (List.mem_cons_of_mem _ (ih h)))

theorem createSignal_mem_commitIssueEvents {pending : KvMap} {k : Key} {v : Bytes}
    (h : (k, v) ∈ pending) : Event.createSignal k ∈ commitIssueEvents pending := by
  induction pending with
  | nil => cases h
  | cons e rest ih =>
    rcases List.mem_cons.mp h with h | h
    · cases h; simp [commitIssueEvents]
    · exact List.mem_cons_of_mem _ (List.mem_cons_of_mem _ (List.mem_cons_of_mem _ (ih h)))

theorem attachOnError_not_mem_commitIssueEvents (pending : KvMap) (k : Key) :
    Event.attachOnError k ∉ commitIssueEvents pending := by
  induction pending with
  | nil => simp [commitIssueEvents]
  | cons e rest ih => simp [commitIssueEvents, ih]

theorem Precedes.append_right {l : List Event} {a b : Event} (l' : List Event)
    (h : Precedes l a b) : Precedes (l ++ l') a b := by
  obtain ⟨l₁, l₂, l₃, rfl⟩ := h
  exact ⟨l₁, l₂, l₃ ++ l', by simp⟩

/-- C2 (the claimed behavior is absent from the code): `impl Write for
WriteTransaction` in `src/kv/idbstore.rs` defines no `del`, and the
pending map's value type has no tombstone variant, so no pending-map
state makes `has` false or `get` none for a key the backend holds:
both reads fall through to the backend on a pending miss and report the
entry present. -/
theorem writeTransaction_no_tombstone (pending backend : KvMap) (k : Key)
    (h : KvMap.containsKey backend k = true) :
    WriteTransaction.has pending backend k = true ∧
      WriteTransaction.get pending backend k ≠ none := by
  rw [KvMap.containsKey_eq_isSome_lookup] at h
  obtain ⟨v, hv⟩ := Option.isSome_iff_exists.mp h
  constructor
  · cases hp : KvMap.containsKey pending k <;>
      simp [WriteTransaction.has, hp, ReadTransaction.has, hasResultMarshal,
        ObjectStore.countRequest, hv]
  · cases hp : KvMap.lookup pending k <;>
      simp [WriteTransaction.get, hp, ReadTransaction.get, getResultMarshal,
        ObjectStore.getRequest, hv]

/-- Witness for C2's theorem: backend holding `k1`, empty pending map. -/
theorem writeTransaction_no_tombstone_witness :
    KvMap.containsKey [("k1", [118])] "k1" = true ∧
      WriteTransaction.has [] [("k1", [118])] "k1" = true ∧
      WriteTransaction.get [] [("k1", [118])] "k1" ≠ none :=
  ⟨by decide, (writeTransaction_no_tombstone [] [("k1", [118])] "k1" (by decide)).1,
    (writeTransaction_no_tombstone [] [("k1", [118])] "k1" (by decide)).2⟩

/-- C1: committing a non-empty pending map pushes every pending entry as
an individual put request and awaits each per-entry completion signal
before awaiting the transaction-level outcome; a reported
transaction-level error is surfaced, otherwise a non-`Committed` outcome
fails with the abort error, otherwise commit succeeds. -/
theorem commit_nonempty_spec (pending : KvMap) (outcome : WriteState)
    (txError : Option String) (h : KvMap.isEmpty pending = false) :
    (∀ k v, (k, v) ∈ pending →
       Event.putRequest k v ∈ (WriteTransaction.commit pending outcome txError).1 ∧
         Precedes (WriteTransaction.commit pending outcome txError).1
           (Event.awaitSignal k) Event.awaitOutcome) ∧
      (∀ e, txError = some e →
        (WriteTransaction.commit pending outcome txError).2
          = .error (StoreError.Str e)) ∧
      (txError = none → outcome ≠ WriteState.Committed →
        (WriteTransaction.commit pending outcome txError).2
          = .error (StoreError.Str "Transaction aborted")) ∧
      (txError = none → outcome = WriteState.Committed →
        (WriteTransaction.commit pending outcome txError).2 = .ok ()) := by
  have htr : (WriteTransaction.commit pending outcome txError).1 =
      commitIssueEvents pending ++ commitAwaitEvents pending ++ [Event.awaitOutcome] := by
    simp [WriteTransaction.commit, h]
  refine ⟨?_, ?_, ?_, ?_⟩
  · intro k v hkv
    rw [htr]
    constructor
    · exact List.mem_append_left _
        (List.mem_append_left _ (putRequest_mem_commitIssueEvents hkv))
    · exact precedes_append_singleton _
        (List.mem_append_right _ (List.mem_map.mpr ⟨(k, v), hkv, rfl⟩))
  · intro e he
    simp [WriteTransaction.commit, h, he]
  · intro he ho
    simp [WriteTransaction.commit, h, he, ho]
  · intro he ho
    simp [WriteTransaction.commit, h, he, ho]

/-- Witness for C1 at a singleton pending map with a committed outcome
and no reported error. -/
theorem commit_nonempty_spec_witness :
    Event.putRequest "k" [0]
        ∈ (WriteTransaction.commit [("k", [0])] WriteState.Committed none).1 ∧
      (WriteTransaction.commit [("k", [0])] WriteState.Committed none).2 = .ok () :=
  ⟨((commit_nonempty_spec [("k", [0])] WriteState.Committed none rfl).1 "k" [0]
      (by simp)).1,
    (commit_nonempty_spec [("k", [0])] WriteState.Committed none rfl).2.2.2 rfl rfl⟩

/-- C8 counterexample: in `ReadTransaction::get` the completion signal
is created after the get request is issued, not before; and `commit`'s
per-entry put requests attach no error callback at all. -/
theorem completion_signal_claim_cex :
    ¬ Precedes (ReadTransaction.getTrace "k") (Event.createSignal "k")
        (Event.getRequest "k") ∧
      Event.attachOnError "k"
        ∉ (WriteTransaction.commit [("k", [0])] WriteState.Committed none).1 := by
  constructor
  · intro hp
    obtain ⟨i, j, hij, ha, hb⟩ := precedes_indices hp
    have hj : j = 0 := by
      rcases j with _ | _ | _ | _ | _ | j <;>
        simp [ReadTransaction.getTrace] at hb ⊢
    omega
  · decide

/-- C8 amended: for every backend request, the single-use completion
signal is created immediately after the request is issued, before any
callback is attached and before the issuing code suspends on it (so the
signal exists before any callback can run, callbacks firing only after
control returns to the event loop); read-side requests and the override
put request attach both the success and the error callback, while
`commit`'s per-entry put requests attach only the success callback; the
issuing code suspends on the signal before inspecting the result. -/
theorem completion_signal_discipline (k : Key) (v : Bytes) (pending : KvMap)
    (outcome : WriteState) (txError : Option String) :
    (Precedes (ReadTransaction.getTrace k) (Event.getRequest k) (Event.createSignal k) ∧
       Precedes (ReadTransaction.getTrace k) (Event.createSignal k)
         (Event.attachOnSuccess k) ∧
       Precedes (ReadTransaction.getTrace k) (Event.createSignal k)
         (Event.attachOnError k) ∧
       Precedes (ReadTransaction.getTrace k) (Event.createSignal k)
         (Event.awaitSignal k)) ∧
      (Precedes (ReadTransaction.hasTrace k) (Event.countRequest k)
         (Event.createSignal k) ∧
       Precedes (ReadTransaction.hasTrace k) (Event.createSignal k)
         (Event.awaitSignal k)) ∧
      (Precedes (IdbStore.putTrace k v) (Event.putRequest k v) (Event.createSignal k) ∧
       Precedes (IdbStore.putTrace k v) (Event.createSignal k)
         (Event.attachOnSuccess k) ∧
       Precedes (IdbStore.putTrace k v) (Event.createSignal k)
         (Event.attachOnError k) ∧
       Precedes (IdbStore.putTrace k v) (Event.createSignal k)
         (Event.awaitSignal k)) ∧
      (∀ k' v', (k', v') ∈ pending →
        Precedes (WriteTransaction.commit pending outcome txError).1
            (Event.putRequest k' v') (Event.createSignal k') ∧
          Precedes (WriteTransaction.commit pending outcome txError).1
            (Event.createSignal k') (Event.awaitSignal k')) ∧
      (∀ k', Event.attachOnError k'
        ∉ (WriteTransaction.commit pending outcome txError).1) := by
  refine ⟨⟨?_, ?_, ?_, ?_⟩, ⟨?_, ?_⟩, ⟨?_, ?_, ?_, ?_⟩, ?_, ?_⟩
  · exact ⟨[], [], [.attachOnSuccess k, .attachOnError k, .awaitSignal k], rfl⟩
  · exact ⟨[.getRequest k], [], [.attachOnError k, .awaitSignal k], rfl⟩
  · exact ⟨[.getRequest k], [.attachOnSuccess k], [.awaitSignal k], rfl⟩
  · exact ⟨[.getRequest k], [.attachOnSuccess k, .attachOnError k], [], rfl⟩
  · exact ⟨[], [], [.attachOnSuccess k, .attachOnError k, .awaitSignal k], rfl⟩
  · exact ⟨[.countRequest k], [.attachOnSuccess k, .attachOnError k], [], rfl⟩
  · exact ⟨[.createTxSignal, .attachOnComplete], [],
      [.attachOnSuccess k, .attachOnError k, .awaitSignal k, .awaitTxSignal], rfl⟩
  · exact ⟨[.createTxSignal, .attachOnComplete, .putRequest k v], [],
      [.attachOnError k, .awaitSignal k, .awaitTxSignal], rfl⟩
  · exact ⟨[.createTxSignal, .attachOnComplete, .putRequest k v],
      [.attachOnSuccess k], [.awaitSignal k, .awaitTxSignal], rfl⟩
  · exact ⟨[.createTxSignal, .attachOnComplete, .putRequest k v],
      [.attachOnSuccess k, .attachOnError k], [.awaitTxSignal], rfl⟩
  · intro k' v' hkv
    have hne : KvMap.isEmpty pending = false := by
      cases pending
      · cases hkv
      · rfl
    have htr : (WriteTransaction.commit pending outcome txError).1 =
        commitIssueEvents pending ++ commitAwaitEvents pending ++ [Event.awaitOutcome] := by
      simp [WriteTransaction.commit, hne]
    rw [htr]
    constructor
    · refine Precedes.append_right _ (Precedes.append_right _ ?_)
      obtain ⟨s, t, rfl⟩ := List.mem_iff_append.mp hkv
      exact ⟨commitIssueEvents s, [],
        Event.attachOnSuccess k' :: commitIssueEvents t,
        by simp [commitIssueEvents_append, commitIssueEvents]⟩
    · refine Precedes.append_right _ ?_
      exact precedes_of_mem_mem (createSignal_mem_commitIssueEvents hkv)
        (List.mem_map.mpr ⟨(k', v'), hkv, rfl⟩)
  · intro k'
    by_cases hne : KvMap.isEmpty pending = true
    · simp [WriteTransaction.commit, hne]
    · have hne' : KvMap.isEmpty pending = false := by
        simpa using hne
      simp [WriteTransaction.commit, hne', commitAwaitEvents,
        attachOnError_not_mem_commitIssueEvents]

/-- Witness for C8's amended theorem at a concrete key and pending map. -/
theorem completion_signal_discipline_witness :
    Precedes (ReadTransaction.getTrace "k") (Event.getRequest "k")
        (Event.createSignal "k") ∧
      Precedes (WriteTransaction.commit [("k", [1])] WriteState.Committed none).1
        (Event.putRequest "k" [1]) (Event.createSignal "k") :=
  ⟨(completion_signal_discipline "k" [1] [("k", [1])] WriteState.Committed none).1.1,
    ((completion_signal_discipline "k" [1] [("k", [1])] WriteState.Committed
        none).2.2.2.1 "k" [1] (by simp)).1⟩

/-- C10 counterexample: when the engine aborts the backend transaction,
the overriding `IdbStore::put` never completes (only the `complete`
callback is registered on its transaction) while the default
`Store::put` path returns an abort error: the two paths are
observationally different. -/
theorem idb_put_override_cex :
    IdbStore.putObservable [] "k" [0] WriteState.Aborted ≠
      Store.putDefaultObservable [] "k" [0] WriteState.Aborted none := by
  decide

/-- C10 amended: whenever the engine commits the backend transaction
(and reports no transaction-level error), the overriding `IdbStore::put`
and the default `Store::put` path are observationally equivalent: both
succeed and leave the store with `v` stored under `k`. -/
theorem idb_put_override_equiv_committed (s : KvMap) (k : Key) (v : Bytes) :
    IdbStore.putObservable s k v WriteState.Committed =
      Store.putDefaultObservable s k v WriteState.Committed none := by
  simp [IdbStore.putObservable, Store.putDefaultObservable, WriteTransaction.commit,
    WriteTransaction.put, KvMap.insert, KvMap.isEmpty, applyPending,
    ObjectStore.putRequest]

end Replicache

